import Mathlib

/-!
# Verification of the dioxus CLI build-request orchestrator

A shallow embedding of `packages/cli/src/build/request.rs`: the cargo
message drain loop of `cargo_build`, the feature merging of
`target_features` / `all_target_features`, the directory layout resolver
(`root_dir` / `exe_dir` / `asset_dir`), the once-per-process directory
preparation (`prepare_build_dir`), the environment construction
(`env_vars`) and the app/server scheduling choice of `build_all`.

Rust strings are modelled as Lean `String`s; Rust `str::trim` /
`trim_start` are modelled over ASCII whitespace (space, tab, newline,
carriage return), which covers every character relevant here.
-/

namespace DxBuild

/-- ASCII whitespace, the fragment of Rust White_Space relevant to the
cargo stream lines handled by the drain loop. -/
def isWsChar (c : Char) : Bool :=
  c = ' ' || c = '\t' || c = '\n' || c = '\r'

/-- `str::trim_start` on char lists. -/
def trimLeftList (l : List Char) : List Char :=
  l.dropWhile isWsChar

/-- `str::trim` on char lists. -/
def trimList (l : List Char) : List Char :=
  ((l.dropWhile isWsChar).reverse.dropWhile isWsChar).reverse

/-- `str::trim` (Rust). -/
def rustTrim (s : String) : String :=
  String.mk (trimList s.toList)

/-- `str::trim_start` (Rust). -/
def rustTrimStart (s : String) : String :=
  String.mk (trimLeftList s.toList)

/-- `str::starts_with` (Rust). -/
def rustStartsWith (s pre : String) : Bool :=
  pre.toList.isPrefixOf s.toList

/-- Fuelled worker for `str::trim_start_matches`: strip the prefix `pat`
while it matches. Each successful strip of a nonempty pattern removes at
least one character, so `s.length + 1` fuel is always enough. -/
def trimStartMatchesGo (pat : List Char) : Nat → List Char → List Char
  | 0, s => s
  | fuel + 1, s =>
    if pat ≠ [] ∧ pat.isPrefixOf s then
      trimStartMatchesGo pat fuel (s.drop pat.length)
    else
      s

/-- `str::trim_start_matches` on char lists: repeatedly strip the prefix
`pat` while it matches. -/
def trimStartMatchesList (pat s : List Char) : List Char :=
  trimStartMatchesGo pat (s.length + 1) s

/-- `str::trim_start_matches` (Rust): repeatedly strips the pattern. -/
def trimStartMatchesStr (s pat : String) : String :=
  String.mk (trimStartMatchesList pat.toList s.toList)

/-- `str::trim_end_matches` with a single-char pattern (Rust): strips all
trailing occurrences of `c`. -/
def trimEndMatchesChar (s : String) (c : Char) : String :=
  String.mk ((s.toList.reverse.dropWhile (· = c)).reverse)

/-- The backtick character, written by code point. -/
def backtickChar : Char := Char.ofNat 96

/-! ## `shell_words::split`

The drain loop tokenizes captured `Running ...` lines with the
`shell_words` crate. The crate's `split` is a character-at-a-time state
machine; `SwState` mirrors its `State` enum and `shellSplitGo` its main
loop. Errors (unbalanced quotes, dangling backslash inside quotes at end
of input) become `none`. -/

/-- The states of `shell_words::split`. -/
inductive SwState
  | delimiter
  | backslash
  | unquoted
  | unquotedBackslash
  | singleQuoted
  | doubleQuoted
  | doubleQuotedBackslash
  | comment
  deriving DecidableEq, Repr

/-- One run of the `shell_words::split` loop: `word` is the current word
(reversed), `words` the completed words (reversed). Returns `none` on a
parse error. -/
def shellSplitGo : SwState → List Char → List Char → List (List Char) →
    Option (List (List Char))
  | .delimiter, [], _word, words => some words.reverse
  | .delimiter, c :: rest, word, words =>
    if c = '\'' then shellSplitGo .singleQuoted rest word words
    else if c = '"' then shellSplitGo .doubleQuoted rest word words
    else if c = '\\' then shellSplitGo .backslash rest word words
    else if c = '\t' ∨ c = ' ' ∨ c = '\n' then
      shellSplitGo .delimiter rest word words
    else if c = '#' then shellSplitGo .comment rest word words
    else shellSplitGo .unquoted rest (c :: word) words
  | .backslash, [], word, words =>
    some (((('\\' :: word).reverse) :: words).reverse)
  | .backslash, c :: rest, word, words =>
    if c = '\n' then shellSplitGo .delimiter rest word words
    else shellSplitGo .unquoted rest (c :: word) words
  | .unquoted, [], word, words => some ((word.reverse :: words).reverse)
  | .unquoted, c :: rest, word, words =>
    if c = '\'' then shellSplitGo .singleQuoted rest word words
    else if c = '"' then shellSplitGo .doubleQuoted rest word words
    else if c = '\\' then shellSplitGo .unquotedBackslash rest word words
    else if c = '\t' ∨ c = ' ' ∨ c = '\n' then
      shellSplitGo .delimiter rest [] (word.reverse :: words)
    else shellSplitGo .unquoted rest (c :: word) words
  | .unquotedBackslash, [], word, words =>
    some (((('\\' :: word).reverse) :: words).reverse)
  | .unquotedBackslash, c :: rest, word, words =>
    if c = '\n' then shellSplitGo .unquoted rest word words
    else shellSplitGo .unquoted rest (c :: word) words
  | .singleQuoted, [], _word, _words => none
  | .singleQuoted, c :: rest, word, words =>
    if c = '\'' then shellSplitGo .unquoted rest word words
    else shellSplitGo .singleQuoted rest (c :: word) words
  | .doubleQuoted, [], _word, _words => none
  | .doubleQuoted, c :: rest, word, words =>
    if c = '"' then shellSplitGo .unquoted rest word words
    else if c = '\\' then shellSplitGo .doubleQuotedBackslash rest word words
    else shellSplitGo .doubleQuoted rest (c :: word) words
  | .doubleQuotedBackslash, [], _word, _words => none
  | .doubleQuotedBackslash, c :: rest, word, words =>
    if c = '\n' then shellSplitGo .doubleQuoted rest word words
    else if c = '$' ∨ c = backtickChar ∨ c = '"' ∨ c = '\\' then
      shellSplitGo .doubleQuoted rest (c :: word) words
    else shellSplitGo .doubleQuoted rest (c :: '\\' :: word) words
  | .comment, [], _word, words => some words.reverse
  | .comment, c :: rest, word, words =>
    if c = '\n' then shellSplitGo .delimiter rest word words
    else shellSplitGo .comment rest word words

/-- `shell_words::split` (Rust crate): POSIX-like word splitting; `none`
models `Err(ParseError)`. -/
def shellWordsSplit (s : String) : Option (List String) :=
  (shellSplitGo .delimiter s.toList [] []).map (List.map String.mk)

/-! ## The cargo message drain loop of `cargo_build`

`cargo_build` parses each stream line as a `cargo_metadata::Message`
(unparseable lines are skipped before this point) and folds the parsed
messages through mutable state `output_location` / `units_compiled` /
`emitting_error` / `direct_rustc`, emitting progress statuses. `Message`
models the parsed variants the loop distinguishes and `drainLoop` the
loop body; statuses are collected in order, and a failed build-finished
message aborts with the fatal error of line 197. -/

/-- A parsed `cargo_metadata::Message`, restricted to the fields the
drain loop reads. `other` covers the `_ => {}` arm. -/
inductive Message
  | buildScriptExecuted
  | textLine (line : String)
  | compilerMessage
  | compilerArtifact (executable : Option String) (targetName : String)
  | buildFinished (success : Bool)
  | other
  deriving DecidableEq, Repr

/-- The loop's mutable state. -/
structure DrainState where
  output_location : Option String
  units_compiled : Nat
  emitting_error : Bool
  direct_rustc : List (List String)
  deriving DecidableEq, Repr

/-- The state at loop entry (lines 133-138). -/
def initialDrainState : DrainState :=
  { output_location := none, units_compiled := 0,
    emitting_error := false, direct_rustc := [] }

/-- A progress report sent on the status channel. -/
inductive Status
  | buildError (line : String)
  | buildMessage (line : String)
  | buildDiagnostic
  | buildProgress (count crate_count : Nat) (name : String)
  deriving DecidableEq, Repr

/-- Is this line's trimmed-start content an error line (line 173)? -/
def isErrorLine (line : String) : Bool :=
  rustStartsWith (rustTrimStart line) "error:"

/-- Is this line a `Running ...` invocation line (line 156)? -/
def isRunningLine (line : String) : Bool :=
  rustStartsWith (rustTrim line) "Running "

/-- The prefix pattern stripped from Running lines (line 160). -/
def runningMarker : String := "Running " ++ String.mk [backtickChar]

/-- The stripped remainder of a Running line: `trim`, then
`trim_start_matches("Running \x60")`, then `trim_end_matches(backtick)`
(lines 158-161). -/
def runningArgs (line : String) : String :=
  trimEndMatchesChar (trimStartMatchesStr (rustTrim line) runningMarker)
    backtickChar

/-- The `Message::TextLine` state update (lines 156-175): capture a
Running invocation when tokenization succeeds, then latch
`emitting_error` on an error-prefixed line. -/
def textLineState (st : DrainState) (line : String) : DrainState :=
  let st1 :=
    if isRunningLine line then
      match shellWordsSplit (runningArgs line) with
      | some split => { st with direct_rustc := st.direct_rustc ++ [split] }
      | none => st
    else st
  if isErrorLine line then { st1 with emitting_error := true } else st1

/-- Fatal error message of line 197. -/
def cargoFailMsg : String :=
  "Cargo build failed, signaled by the compiler. Toggle tracing mode (press \x60t\x60) for more information."

/-- Error message of line 211 when no executable was recorded. -/
def noExeMsg : String := "Build did not return an executable"

/-- The drain loop (lines 140-205) over an already-parsed message list:
returns the emitted statuses (everything sent before a fatal abort) and
either the final state or the fatal error. -/
def drainLoop (crate_count : Nat) (st : DrainState) :
    List Message → List Status × Except String DrainState
  | [] => ([], .ok st)
  | m :: rest =>
    match m with
    | .buildScriptExecuted =>
      drainLoop crate_count
        { st with units_compiled := st.units_compiled + 1 } rest
    | .textLine line =>
      let st2 := textLineState st line
      let s := if st2.emitting_error then Status.buildError line
               else Status.buildMessage line
      let (out, r) := drainLoop crate_count st2 rest
      (s :: out, r)
    | .compilerMessage =>
      let (out, r) := drainLoop crate_count st rest
      (Status.buildDiagnostic :: out, r)
    | .compilerArtifact exe name =>
      let units := st.units_compiled + 1
      match exe with
      | some e =>
        drainLoop crate_count
          { st with units_compiled := units, output_location := some e } rest
      | none =>
        let (out, r) :=
          drainLoop crate_count { st with units_compiled := units } rest
        (Status.buildProgress units crate_count name :: out, r)
    | .buildFinished success =>
      if success then drainLoop crate_count st rest
      else ([], .error cargoFailMsg)
    | .other => drainLoop crate_count st rest

/-- The artifacts `cargo_build` returns (elapsed time omitted). -/
structure BuildArtifacts where
  exe : String
  direct_rustc : List (List String)
  deriving DecidableEq, Repr

/-- `cargo_build` after command assembly: drain the stream, then require
a recorded output location (lines 207-219). -/
def cargoBuildResult (crate_count : Nat) (msgs : List Message) :
    Except String BuildArtifacts :=
  match (drainLoop crate_count initialDrainState msgs).2 with
  | .error e => .error e
  | .ok st =>
    match st.output_location with
    | none => .error noExeMsg
    | some exe => .ok { exe := exe, direct_rustc := st.direct_rustc }

/-! ## Platforms, build modes and feature merging -/

/-- The `Platform` enumeration, in the order of the source matches. -/
inductive Platform
  | web
  | macos
  | windows
  | linux
  | ios
  | android
  | server
  | liveview
  deriving DecidableEq, Repr

/-- The tag of `BuildMode` (`Thin`'s captured invocations are irrelevant
to the properties below). -/
inductive BuildModeTag
  | base
  | fat
  | thin
  deriving DecidableEq, Repr

/-- The feature-related fields of `TargetArgs` the merge reads. -/
structure TargetArgs where
  features : List String
  server_features : List String
  client_features : List String
  no_default_features : Bool
  deriving DecidableEq, Repr

/-- The build-configuration fields read by feature merging:
`default_features` stands for
`krate.package().features.get("default").cloned().unwrap_or_default()`,
with `[]` when the package declares no default set. -/
structure FeatureCfg where
  platform : Platform
  target_args : TargetArgs
  default_features : List String
  deriving DecidableEq, Repr

/-- `target_features` (lines 393-403): explicit features extended by the
server or client side depending on the platform. -/
def target_features (cfg : FeatureCfg) : List String :=
  cfg.target_args.features ++
    (if cfg.platform = .server then cfg.target_args.server_features
     else cfg.target_args.client_features)

/-- Worker for Rust `Vec::dedup`: `prev` is the last element kept. -/
def rustDedupGo {α : Type} [DecidableEq α] (prev : α) : List α → List α
  | [] => []
  | b :: rest =>
    if prev = b then rustDedupGo prev rest else b :: rustDedupGo b rest

/-- Rust `Vec::dedup`: removes *consecutive* repeated elements, keeping
the first of each run. -/
def rustDedup {α : Type} [DecidableEq α] : List α → List α
  | [] => []
  | a :: rest => a :: rustDedupGo a rest

/-- `all_target_features` (lines 405-422): extend with the package's
default features unless suppressed, then `dedup`. -/
def all_target_features (cfg : FeatureCfg) : List String :=
  rustDedup (target_features cfg ++
    (if ¬cfg.target_args.no_default_features then cfg.default_features
     else []))

/-! ## The layout resolver

`root_dir` / `exe_dir` / `asset_dir` build paths by `join`ing components
onto `platform_dir` (= `krate.build_dir(platform, release)`, computed
outside this file's source). Paths are modelled as component lists, the
platform directory and the externally computed names
(`bundled_app_name`, the per-architecture `android_jnilib`) as inputs. -/

/-- Inputs of the layout resolver. -/
structure LayoutInput where
  platform : Platform
  platform_dir : List String
  bundled_app_name : String
  android_jnilib : String
  deriving DecidableEq, Repr

/-- `root_dir` (lines 719-736). -/
def root_dir (li : LayoutInput) : List String :=
  match li.platform with
  | .web => li.platform_dir ++ ["public"]
  | .server => li.platform_dir
  | .macos => li.platform_dir ++ [li.bundled_app_name ++ ".app"]
  | .ios => li.platform_dir ++ [li.bundled_app_name ++ ".app"]
  | .android => li.platform_dir ++ ["app"]
  | .linux => li.platform_dir ++ ["app"]
  | .windows => li.platform_dir ++ ["app"]
  | .liveview => li.platform_dir ++ ["app"]

/-- `exe_dir` (lines 664-685). -/
def exe_dir (li : LayoutInput) : List String :=
  match li.platform with
  | .macos => root_dir li ++ ["Contents", "MacOS"]
  | .web => root_dir li ++ ["wasm"]
  | .android =>
    root_dir li ++ ["app", "src", "main", "jniLibs", li.android_jnilib]
  | .windows => root_dir li
  | .linux => root_dir li
  | .ios => root_dir li
  | .server => root_dir li
  | .liveview => root_dir li

/-- `asset_dir` (lines 743-766). -/
def asset_dir (li : LayoutInput) : List String :=
  match li.platform with
  | .macos => root_dir li ++ ["Contents", "Resources", "assets"]
  | .android => root_dir li ++ ["app", "src", "main", "assets"]
  | .web => root_dir li ++ ["assets"]
  | .ios => root_dir li ++ ["assets"]
  | .windows => root_dir li ++ ["assets"]
  | .linux => root_dir li ++ ["assets"]
  | .server => root_dir li ++ ["assets"]
  | .liveview => root_dir li ++ ["assets"]

/-! ## Environment construction and command assembly

`env_vars` (lines 472-606) first runs the Android block, which fails
with "Could not autodetect android linker" when no NDK is found; then,
at lines 545-554, it unconditionally evaluates
`let linker = match self.build.platform() { ... }` in which *every*
platform arm is `todo!()`. Control therefore never reaches the variable
pushes after line 554 (the linker-intent variable, target dir, release
base path/title); the outcome is modelled as an explicit panic. -/

/-- Outcome of a Rust function that may return, error, or panic. -/
inductive EnvOutcome
  | ok (vars : List (String × String))
  | err (msg : String)
  | panic (msg : String)
  deriving DecidableEq, Repr

/-- Inputs of `env_vars` that can influence which outcome arises. -/
structure EnvInput where
  platform : Platform
  android_ndk_found : Bool
  mode : BuildModeTag
  deriving DecidableEq, Repr

/-- `env_vars` (lines 472-606): the Android block errs without an NDK
(line 478); otherwise the all-`todo!()` linker match at lines 545-554
panics before any value can be returned. -/
def env_vars (i : EnvInput) : EnvOutcome :=
  if i.platform = .android ∧ ¬i.android_ndk_found then
    .err "Could not autodetect android linker"
  else
    .panic "not yet implemented"

/-- `assemble_build_command` (lines 229-267): builds the `cargo rustc`
command from `build_arguments()` and `env_vars()?`; its only failure
paths are those of `env_vars`, which it propagates. -/
def assemble_build_command (i : EnvInput) : EnvOutcome :=
  env_vars i

/-! ## `build_all` scheduling -/

/-- How the app build and the server build are scheduled relative to
each other. -/
inductive Sched
  | concurrent
  | sequential
  deriving DecidableEq, Repr

/-- The scheduling choice of `build_all` (lines 84-87):
`force_sequential = true` joins `cargo_build()` and `build_server()`
with `futures_util::future::try_join` (both futures polled
concurrently); `false` awaits `cargo_build()` to completion before
awaiting `build_server()`. -/
def buildAllSched (force_sequential : Bool) : Sched :=
  match force_sequential with
  | true => .concurrent
  | false => .sequential

/-- The suffix of the debug trace at lines 75-82: "(sequentially)" is
printed exactly when `force_sequential` is set. -/
def buildAllTraceNote (force_sequential : Bool) : String :=
  if force_sequential then "(sequentially)" else ""

/-! ## Once-per-process directory preparation

`prepare_build_dir` (lines 616-648) guards its filesystem work behind a
`static INITIALIZED: OnceCell<Result<()>>`. The cell and a count of how
many times the init closure ran are modelled as explicit process state;
the init closure's own outcome (remove + create dirs, Android
scaffolding) is an input, since it is decided by the filesystem. -/

/-- Process-wide state: the `OnceCell` contents and the number of times
the destructive init closure has run. -/
structure PrepProcess where
  cell : Option (Except String Unit)
  fs_effects : Nat
  deriving Repr

/-- Lines 643-647: a cached `Err(e)` is observed by every caller as
`Err("Failed to initialize build directory: {e}")`; a cached `Ok` as
`Ok(())`. -/
def wrapPrep : Except String Unit → Except String Unit
  | .ok _ => .ok ()
  | .error e => .error ("Failed to initialize build directory: " ++ e)

/-- One call to `prepare_build_dir`: `get_or_init` runs the closure only
when the cell is empty, then every caller reads the cached result. -/
def prepare_build_dir (p : PrepProcess) (initResult : Except String Unit) :
    Except String Unit × PrepProcess :=
  match p.cell with
  | some r => (wrapPrep r, p)
  | none =>
    (wrapPrep initResult,
     { cell := some initResult, fs_effects := p.fs_effects + 1 })

/-- `n` successive calls to `prepare_build_dir` in one process,
collecting each call's observed result. -/
def runPrepCalls : Nat → PrepProcess → Except String Unit →
    List (Except String Unit) × PrepProcess
  | 0, p, _ => ([], p)
  | n + 1, p, init =>
    let (r, p2) := prepare_build_dir p init
    let (rs, p3) := runPrepCalls n p2 init
    (r :: rs, p3)

/-- The state of a fresh process: empty cell, no side effects yet. -/
def freshProcess : PrepProcess := { cell := none, fs_effects := 0 }

/-! ## Helper functions for classifying drain output -/

/-- Is a status one of the two free-text classifications? -/
def isTextStatus : Status → Bool
  | .buildError _ => true
  | .buildMessage _ => true
  | _ => false

/-- The free-text statuses of a status list, in order. -/
def textStatuses (out : List Status) : List Status :=
  out.filter isTextStatus

/-- The free-text lines of a message list, in order. -/
def textLines (msgs : List Message) : List String :=
  msgs.filterMap fun m =>
    match m with
    | .textLine l => some l
    | _ => none

/-! ## Helper lemmas -/

/-- `textLineState` changes the error latch to `old || isErrorLine`. -/
theorem textLineState_emitting_error (st : DrainState) (l : String) :
    (textLineState st l).emitting_error =
      (st.emitting_error || isErrorLine l) := by
  unfold textLineState
  cases h : isErrorLine l <;> simp [h] <;> split <;> (try split) <;> rfl

/-- `textLineState` never touches the unit counter or output location. -/
theorem textLineState_units_output (st : DrainState) (l : String) :
    (textLineState st l).units_compiled = st.units_compiled ∧
      (textLineState st l).output_location = st.output_location := by
  unfold textLineState
  split <;> (try split) <;> (try split) <;> simp_all

/-- With the latch already set, a drain reports every free-text line as
an error-level status and nothing as a plain build message. -/
theorem drain_latched (c : Nat) (msgs : List Message) :
    ∀ st : DrainState, st.emitting_error = true →
      Message.buildFinished false ∉ msgs →
      textStatuses (drainLoop c st msgs).1 =
        (textLines msgs).map Status.buildError := by
  induction msgs with
  | nil => intro st _ _; simp [drainLoop, textStatuses, textLines]
  | cons m rest ih =>
    intro st hlatch hnf
    have hnf_rest : Message.buildFinished false ∉ rest := by
      intro h; exact hnf (List.mem_cons_of_mem _ h)
    cases m with
    | buildScriptExecuted =>
      simp only [drainLoop, textLines, List.filterMap_cons]
      exact ih { st with units_compiled := st.units_compiled + 1 } hlatch hnf_rest
    | textLine l =>
      have hset : (textLineState st l).emitting_error = true := by
        rw [textLineState_emitting_error, hlatch]; simp
      simp only [drainLoop, hset]
      simpa [textStatuses, textLines, isTextStatus, List.filter_cons]
        using ih (textLineState st l) hset hnf_rest
    | compilerMessage =>
      simp only [drainLoop, textLines, List.filterMap_cons, textStatuses,
        List.filter_cons, isTextStatus]
      exact ih st hlatch hnf_rest
    | compilerArtifact exe name =>
      cases exe with
      | some e =>
        simp only [drainLoop, textLines, List.filterMap_cons]
        exact ih { st with units_compiled := st.units_compiled + 1, output_location := some e } hlatch hnf_rest
      | none =>
        simp only [drainLoop, textLines, List.filterMap_cons, textStatuses,
          List.filter_cons, isTextStatus]
        exact ih { st with units_compiled := st.units_compiled + 1 } hlatch hnf_rest
    | buildFinished success =>
      cases success with
      | true =>
        simp only [drainLoop, if_pos rfl, textLines, List.filterMap_cons]
        exact ih st hlatch hnf_rest
      | false => exact absurd (List.mem_cons_self _ _) hnf
    | other =>
      simp only [drainLoop, textLines, List.filterMap_cons]
      exact ih st hlatch hnf_rest

/-- Draining error-free text lines from an unlatched state reports them
as plain build messages until the first error-prefixed line `e`, which
and whose successors are all reported as error-level statuses. -/
theorem drain_clean_prefix (c : Nat) (pre : List Message) :
    ∀ st : DrainState, st.emitting_error = false →
      (∀ l ∈ textLines pre, isErrorLine l = false) →
      Message.buildFinished false ∉ pre →
      ∀ (e : String) (post : List Message), isErrorLine e = true →
      Message.buildFinished false ∉ post →
      textStatuses
          (drainLoop c st (pre ++ Message.textLine e :: post)).1 =
        (textLines pre).map Status.buildMessage ++
          Status.buildError e :: (textLines post).map Status.buildError := by
  induction pre with
  | nil =>
    intro st hlatch _ _ e post he hnfp
    have hset : (textLineState st e).emitting_error = true := by
      rw [textLineState_emitting_error, hlatch, he]; rfl
    simp only [List.nil_append, drainLoop, hset]
    have := drain_latched c post (textLineState st e) hset hnfp
    simpa [textStatuses, textLines, isTextStatus] using this
  | cons m rest ih =>
    intro st hlatch hpre hnf e post he hnfp
    have hnf_rest : Message.buildFinished false ∉ rest := by
      intro h; exact hnf (List.mem_cons_of_mem _ h)
    have hpre_rest : ∀ l ∈ textLines rest, isErrorLine l = false := by
      intro l hl
      refine hpre l ?_
      simp only [textLines, List.filterMap_cons] at *
      cases m <;> simp_all [textLines]
    cases m with
    | buildScriptExecuted =>
      simp only [List.cons_append, drainLoop, textLines, List.filterMap_cons]
      exact ih { st with units_compiled := st.units_compiled + 1 } hlatch hpre_rest hnf_rest e post he hnfp
    | textLine l =>
      have hl : isErrorLine l = false := by
        refine hpre l ?_
        simp [textLines]
      have hkeep : (textLineState st l).emitting_error = false := by
        rw [textLineState_emitting_error, hlatch, hl]; rfl
      simp only [List.cons_append, drainLoop, hkeep]
      simpa [textStatuses, textLines, isTextStatus, List.filter_cons]
        using ih (textLineState st l) hkeep hpre_rest hnf_rest e post he hnfp
    | compilerMessage =>
      simp only [List.cons_append, drainLoop, textLines, List.filterMap_cons,
        textStatuses, List.filter_cons, isTextStatus]
      exact ih st hlatch hpre_rest hnf_rest e post he hnfp
    | compilerArtifact exe name =>
      cases exe with
      | some ex =>
        simp only [List.cons_append, drainLoop, textLines,
          List.filterMap_cons]
        exact ih { st with units_compiled := st.units_compiled + 1, output_location := some ex } hlatch hpre_rest hnf_rest e post he hnfp
      | none =>
        simp only [List.cons_append, drainLoop, textLines,
          List.filterMap_cons, textStatuses, List.filter_cons, isTextStatus]
        exact ih { st with units_compiled := st.units_compiled + 1 } hlatch hpre_rest hnf_rest e post he hnfp
    | buildFinished success =>
      cases success with
      | true =>
        simp only [List.cons_append, drainLoop, if_pos rfl, textLines,
          List.filterMap_cons]
        exact ih st hlatch hpre_rest hnf_rest e post he hnfp
      | false => exact absurd (List.mem_cons_self _ _) hnf
    | other =>
      simp only [List.cons_append, drainLoop, textLines, List.filterMap_cons]
      exact ih st hlatch hpre_rest hnf_rest e post he hnfp

/-- A drain aborts with the compiler-signalled fatal error whenever a
failed build-finished message occurs anywhere in the stream, whatever
the state (in particular whatever output location is recorded). -/
theorem drain_fail_mem (c : Nat) (msgs : List Message) :
    ∀ st : DrainState, Message.buildFinished false ∈ msgs →
      (drainLoop c st msgs).2 = Except.error cargoFailMsg := by
  induction msgs with
  | nil => intro st h; cases h
  | cons m rest ih =>
    intro st h
    cases m with
    | buildScriptExecuted =>
      have hr : Message.buildFinished false ∈ rest := by
        rcases List.mem_cons.mp h with h1 | h1
        · exact absurd h1 (by simp)
        · exact h1
      show (drainLoop c { st with units_compiled := st.units_compiled + 1 }
        rest).2 = _
      exact ih _ hr
    | textLine l =>
      have hr : Message.buildFinished false ∈ rest := by
        rcases List.mem_cons.mp h with h1 | h1
        · exact absurd h1 (by simp)
        · exact h1
      show (drainLoop c (textLineState st l) rest).2 = _
      exact ih _ hr
    | compilerMessage =>
      have hr : Message.buildFinished false ∈ rest := by
        rcases List.mem_cons.mp h with h1 | h1
        · exact absurd h1 (by simp)
        · exact h1
      show (drainLoop c st rest).2 = _
      exact ih _ hr
    | compilerArtifact exe name =>
      have hr : Message.buildFinished false ∈ rest := by
        rcases List.mem_cons.mp h with h1 | h1
        · exact absurd h1 (by simp)
        · exact h1
      cases exe with
      | some e =>
        show (drainLoop c { st with
          units_compiled := st.units_compiled + 1,
          output_location := some e } rest).2 = _
        exact ih _ hr
      | none =>
        show (drainLoop c { st with
          units_compiled := st.units_compiled + 1 } rest).2 = _
        exact ih _ hr
    | buildFinished success =>
      cases success with
      | false => rfl
      | true =>
        have hr : Message.buildFinished false ∈ rest := by
          rcases List.mem_cons.mp h with h1 | h1
          · exact absurd h1 (by simp)
          · exact h1
        show (drainLoop c st rest).2 = _
        exact ih _ hr
    | other =>
      have hr : Message.buildFinished false ∈ rest := by
        rcases List.mem_cons.mp h with h1 | h1
        · exact absurd h1 (by simp)
        · exact h1
      show (drainLoop c st rest).2 = _
      exact ih _ hr

/-- `rustDedupGo prev` output chains `≠` starting from `prev`. -/
theorem rustDedupGo_chain {α : Type} [DecidableEq α] (l : List α) :
    ∀ prev : α, (prev :: rustDedupGo prev l).Chain' (fun a b => a ≠ b) := by
  induction l with
  | nil => intro prev; simp [rustDedupGo]
  | cons b rest ih =>
    intro prev
    by_cases hpb : prev = b
    · simpa [rustDedupGo, hpb] using ih b
    · rw [show rustDedupGo prev (b :: rest) = b :: rustDedupGo b rest from
        by simp [rustDedupGo, hpb]]
      exact List.chain'_cons.mpr ⟨hpb, ih b⟩

/-- A list with no adjacent equal elements is unchanged by `dedup`. -/
theorem rustDedupGo_of_chain {α : Type} [DecidableEq α] (l : List α) :
    ∀ prev : α, (prev :: l).Chain' (fun a b => a ≠ b) →
      rustDedupGo prev l = l := by
  induction l with
  | nil => intro prev _; rfl
  | cons b rest ih =>
    intro prev hch
    rw [List.chain'_cons] at hch
    simp [rustDedupGo, hch.1, ih b hch.2]

/-- `rustDedup` output has no adjacent equal elements. -/
theorem rustDedup_chain {α : Type} [DecidableEq α] (l : List α) :
    (rustDedup l).Chain' (fun a b => a ≠ b) := by
  cases l with
  | nil => simp [rustDedup]
  | cons a rest => exact rustDedupGo_chain rest a

/-- A list with no adjacent equal elements is a `rustDedup` fixpoint. -/
theorem rustDedup_of_chain {α : Type} [DecidableEq α] (l : List α)
    (h : l.Chain' (fun a b => a ≠ b)) : rustDedup l = l := by
  cases l with
  | nil => rfl
  | cons a rest => simp [rustDedup, rustDedupGo_of_chain rest a h]

/-- Calls to `prepare_build_dir` on a populated cell return the cached
outcome and leave the process state untouched. -/
theorem runPrepCalls_cached (m : Nat) (r init : Except String Unit)
    (p : PrepProcess) (h : p.cell = some r) :
    runPrepCalls m p init = (List.replicate m (wrapPrep r), p) := by
  induction m with
  | zero => simp [runPrepCalls]
  | succ k ih => simp [runPrepCalls, prepare_build_dir, h, ih,
      List.replicate_succ]

/-- On a successfully tokenized Running line, `textLineState` appends
exactly the token vector and applies the usual latch update. -/
theorem textLineState_capture_ok (st : DrainState) (line : String)
    (toks : List String) (h1 : isRunningLine line = true)
    (h2 : shellWordsSplit (runningArgs line) = some toks) :
    textLineState st line =
      { st with direct_rustc := st.direct_rustc ++ [toks], emitting_error := st.emitting_error || isErrorLine line } := by
  cases st
  unfold textLineState
  cases h3 : isErrorLine line <;>
    simp [h1, h2, h3, Bool.or_true, Bool.or_false]

/-- On a Running line whose remainder fails tokenization,
`textLineState` changes nothing but the latch. -/
theorem textLineState_capture_fail (st : DrainState) (line : String)
    (h1 : isRunningLine line = true)
    (h2 : shellWordsSplit (runningArgs line) = none) :
    textLineState st line =
      { st with emitting_error := st.emitting_error || isErrorLine line } := by
  cases st
  unfold textLineState
  cases h3 : isErrorLine line <;>
    simp [h1, h2, h3, Bool.or_true, Bool.or_false]

/-! ## Claim theorems -/

/-- C1: the claim states that command assembly (including `env_vars`)
always completes and returns a command without erroring or panicking.
The code refutes it: `env_vars` unconditionally evaluates the
linker-selection match whose every platform arm is `todo!()`, so
assembly panics on every input (shown here at the failing input
platform = Web, mode = Base) and can never return a command. -/
theorem C1_assemble_build_command_panics :
    assemble_build_command
        { platform := Platform.web, android_ndk_found := true,
          mode := BuildModeTag.base } =
      EnvOutcome.panic "not yet implemented" ∧
    ∀ (i : EnvInput) (vars : List (String × String)),
      assemble_build_command i ≠ EnvOutcome.ok vars := by
  refine ⟨rfl, ?_⟩
  intro i vars h
  unfold assemble_build_command env_vars at h
  split at h <;> exact EnvOutcome.noConfusion h

/-- C2 counterexample: the claim states that a produced-artifact event
naming an executable does not increment the unit counter. Processing
exactly one executable-naming artifact event from the initial state
leaves the counter at 1, not 0. -/
theorem C2_executable_artifact_increments_counter :
    (drainLoop 7 initialDrainState
        [Message.compilerArtifact (some "/target/debug/app") "app"]
      ).2.toOption.map DrainState.units_compiled = some 1 ∧
    ¬ (drainLoop 7 initialDrainState
        [Message.compilerArtifact (some "/target/debug/app") "app"]
      ).2.toOption.map DrainState.units_compiled = some 0 := by
  decide

/-- C2 (amended): every produced-artifact event increments the unit
counter by one; when it names an executable the recorded output location
is overwritten with that path (so after two executable-naming events the
recorded path is the second one's) and no progress is reported, and
otherwise progress is reported with the target's declared name. -/
theorem C2_artifact_event_step (c : Nat) (st : DrainState)
    (e e2 n : String) (rest : List Message) :
    drainLoop c st (Message.compilerArtifact (some e) n :: rest) =
      drainLoop c { st with units_compiled := st.units_compiled + 1, output_location := some e } rest ∧
    drainLoop c st (Message.compilerArtifact none n :: rest) =
      (Status.buildProgress (st.units_compiled + 1) c n ::
        (drainLoop c { st with units_compiled := st.units_compiled + 1 } rest).1,
       (drainLoop c { st with units_compiled := st.units_compiled + 1 } rest).2) ∧
    drainLoop c st (Message.compilerArtifact (some e) n ::
        Message.compilerArtifact (some e2) n :: rest) =
      drainLoop c { st with units_compiled := st.units_compiled + 2, output_location := some e2 } rest :=
  ⟨rfl, rfl, rfl⟩

/-- C3: sticky error latch. In a completed drain whose free-text lines
before `e` are not error-prefixed and where `e` is, every free-text line
before `e` is reported as a plain build message, and `e` and every
free-text line after it are reported as error-level statuses. -/
theorem C3_sticky_error_latch (c : Nat) (pre post : List Message)
    (e : String)
    (hpre : ∀ l ∈ textLines pre, isErrorLine l = false)
    (he : isErrorLine e = true)
    (hnf : Message.buildFinished false ∉
      pre ++ Message.textLine e :: post) :
    textStatuses
        (drainLoop c initialDrainState
          (pre ++ Message.textLine e :: post)).1 =
      (textLines pre).map Status.buildMessage ++
        Status.buildError e :: (textLines post).map Status.buildError := by
  have hnf1 : Message.buildFinished false ∉ pre := fun hm =>
    hnf (List.mem_append_left _ hm)
  have hnf2 : Message.buildFinished false ∉ post := fun hm =>
    hnf (List.mem_append_right _ (List.mem_cons_of_mem _ hm))
  exact drain_clean_prefix c pre initialDrainState rfl hpre hnf1 e post
    he hnf2

/-- C3 witness: a benign line, then an error line, then a benign line;
the first is a message, the error line and the benign line after it are
error-level. -/
theorem C3_sticky_error_latch_witness :
    textStatuses
        (drainLoop 3 initialDrainState
          ([Message.textLine "   Compiling foo v0.1.0",
            Message.buildScriptExecuted] ++
            Message.textLine "error: expected expression" ::
            [Message.textLine "   note: benign following line",
             Message.compilerMessage])).1 =
      [Status.buildMessage "   Compiling foo v0.1.0",
       Status.buildError "error: expected expression",
       Status.buildError "   note: benign following line"] :=
  C3_sticky_error_latch 3 _ _ _ (by decide) (by decide) (by decide)

/-- C4: captured-invocation extraction. The exact-format line
`Running \x60rustc --crate-name foo -O\x60` appends the token vector
`["rustc", "--crate-name", "foo", "-O"]` to the captured-invocations
list, and in general a Running line whose stripped remainder tokenizes
successfully appends exactly its token vector. -/
theorem C4_running_line_capture :
    (drainLoop 1 initialDrainState
        [Message.textLine "Running `rustc --crate-name foo -O`"]
      ).2.toOption.map DrainState.direct_rustc =
      some [["rustc", "--crate-name", "foo", "-O"]] ∧
    ∀ (st : DrainState) (line : String) (toks : List String),
      isRunningLine line = true →
      shellWordsSplit (runningArgs line) = some toks →
      (textLineState st line).direct_rustc = st.direct_rustc ++ [toks] := by
  constructor
  · decide
  · intro st line toks h1 h2
    rw [textLineState_capture_ok st line toks h1 h2]

/-- C4 witness: a second concrete Running line, through the general
part of the theorem. -/
theorem C4_running_line_capture_witness :
    (textLineState initialDrainState "Running `cc main.o -o app`"
      ).direct_rustc =
      initialDrainState.direct_rustc ++ [["cc", "main.o", "-o", "app"]] :=
  C4_running_line_capture.2 initialDrainState _ _ (by decide) (by decide)

/-- C5: the destructive directory preparation runs at most once per
process: across `n ≥ 1` calls in one process, the init closure runs
exactly once, and every call (the first included) observes the same
cached outcome — also when that outcome is a failure. -/
theorem C5_prepare_build_dir_once (n : Nat) (init : Except String Unit)
    (h : 1 ≤ n) :
    (runPrepCalls n freshProcess init).2.fs_effects = 1 ∧
    (runPrepCalls n freshProcess init).1 =
      List.replicate n (wrapPrep init) := by
  obtain ⟨m, rfl⟩ : ∃ m, n = m + 1 := ⟨n - 1, by omega⟩
  have hrun : runPrepCalls (m + 1) freshProcess init =
      (wrapPrep init :: List.replicate m (wrapPrep init),
        { cell := some init, fs_effects := 1 }) := by
    simp [runPrepCalls, prepare_build_dir, freshProcess,
      runPrepCalls_cached m init init
        { cell := some init, fs_effects := 1 } rfl]
  rw [hrun]
  exact ⟨rfl, (List.replicate_succ _ _).symm⟩

/-- C5 witness: three calls against a failing filesystem perform the
side effect once and all observe the cached failure. -/
theorem C5_prepare_build_dir_once_witness :
    (runPrepCalls 3 freshProcess (Except.error "disk full")
      ).2.fs_effects = 1 ∧
    (runPrepCalls 3 freshProcess (Except.error "disk full")).1 =
      List.replicate 3 (wrapPrep (Except.error "disk full")) :=
  C5_prepare_build_dir_once 3 (Except.error "disk full") (by norm_num)

/-- C6: the claim states `force_sequential = true` makes `build_all` run
the app and server builds strictly sequentially. The code refutes it:
`true` selects `try_join` (concurrent polling of both futures) and
`false` the sequential awaits — even though the code's own debug trace
prints "(sequentially)" exactly when the flag is set. -/
theorem C6_force_sequential_is_concurrent :
    buildAllSched true = Sched.concurrent ∧
    buildAllSched false = Sched.sequential ∧
    buildAllTraceNote true = "(sequentially)" :=
  ⟨rfl, rfl, rfl⟩

/-- An explicit configuration on which feature merging keeps a
duplicate: explicit feature "a", client features ["b", "a"]. -/
def c7Config : FeatureCfg :=
  { platform := Platform.web,
    target_args :=
      { features := ["a"], server_features := [],
        client_features := ["b", "a"], no_default_features := true },
    default_features := [] }

/-- C7 counterexample: the claim states the merged feature set contains
no duplicate names. `Vec::dedup` only removes adjacent repeats, so the
merge of explicit "a" with client features ["b", "a"] keeps both copies
of "a". -/
theorem C7_duplicate_feature_counterexample :
    all_target_features c7Config = ["a", "b", "a"] ∧
    ¬ (all_target_features c7Config).Nodup := by
  decide

/-- C7 (amended): the de-duplication step is idempotent — re-applying
`dedup` to the merged feature list is a no-op — and the merged result
contains no two adjacent equal feature names; duplicates at non-adjacent
positions may remain. -/
theorem C7_dedup_idempotent_adjacent (cfg : FeatureCfg) :
    rustDedup (all_target_features cfg) = all_target_features cfg ∧
    (all_target_features cfg).Chain' (fun a b => a ≠ b) :=
  ⟨rustDedup_of_chain _ (rustDedup_chain _), rustDedup_chain _⟩

/-- C8: a failed build-finished event anywhere in the stream makes
`cargo_build` return the fatal compiler-signalled error, regardless of
the drain state — in particular regardless of any previously recorded
executable path. -/
theorem C8_build_finished_failure_fatal (c : Nat) (msgs : List Message)
    (h : Message.buildFinished false ∈ msgs) :
    cargoBuildResult c msgs = Except.error cargoFailMsg ∧
    ∀ st : DrainState,
      (drainLoop c st msgs).2 = Except.error cargoFailMsg := by
  have hd := drain_fail_mem c msgs
  constructor
  · unfold cargoBuildResult
    rw [hd initialDrainState h]
  · intro st
    exact hd st h

/-- C8 witness: an executable was already recorded, yet the failed
build-finished event still aborts fatally. -/
theorem C8_build_finished_failure_fatal_witness :
    cargoBuildResult 2
        [Message.compilerArtifact (some "/t/app") "app",
         Message.buildFinished false] =
      Except.error cargoFailMsg :=
  (C8_build_finished_failure_fatal 2 _ (by decide)).1

/-- C9: the layout resolver is a pure function of its inputs (it is a
Lean function, hence deterministic and side-effect-free), and for every
platform directory and bundled app name: the macOS executable directory
ends in `<name>.app/Contents/MacOS`, the web root directory ends in
`public`, and the web executable directory ends in `wasm`. -/
theorem C9_layout_resolver (d : List String) (n jn : String) :
    exe_dir { platform := Platform.macos, platform_dir := d, bundled_app_name := n, android_jnilib := jn } =
      d ++ [n ++ ".app", "Contents", "MacOS"] ∧
    root_dir { platform := Platform.web, platform_dir := d, bundled_app_name := n, android_jnilib := jn } =
      d ++ ["public"] ∧
    exe_dir { platform := Platform.web, platform_dir := d, bundled_app_name := n, android_jnilib := jn } =
      d ++ ["public", "wasm"] := by
  refine ⟨?_, rfl, ?_⟩ <;> simp [exe_dir, root_dir]

/-- C10: a Running line whose stripped remainder fails shell
tokenization is skipped silently for capture purposes — the
captured-invocations list is unchanged, no error is raised, and the line
is still reported through the normal free-text path with the error-latch
classification. -/
theorem C10_tokenization_failure_skips_capture (st : DrainState)
    (line : String) (c : Nat) (rest : List Message)
    (h1 : isRunningLine line = true)
    (h2 : shellWordsSplit (runningArgs line) = none) :
    textLineState st line =
      { st with emitting_error := st.emitting_error || isErrorLine line } ∧
    (textLineState st line).direct_rustc = st.direct_rustc ∧
    drainLoop c st (Message.textLine line :: rest) =
      ((if st.emitting_error || isErrorLine line then
          Status.buildError line
        else Status.buildMessage line) ::
        (drainLoop c (textLineState st line) rest).1,
       (drainLoop c (textLineState st line) rest).2) := by
  have hs := textLineState_capture_fail st line h1 h2
  refine ⟨hs, by rw [hs], ?_⟩
  show ((if (textLineState st line).emitting_error then
      Status.buildError line
    else Status.buildMessage line) ::
      (drainLoop c (textLineState st line) rest).1,
    (drainLoop c (textLineState st line) rest).2) = _
  rw [textLineState_emitting_error]

/-- C10 witness: an unbalanced double quote in the Running remainder
fails tokenization; the captured-invocations list stays empty. -/
theorem C10_tokenization_failure_skips_capture_witness :
    (textLineState initialDrainState "Running `rustc \"unbalanced"
      ).direct_rustc = initialDrainState.direct_rustc :=
  (C10_tokenization_failure_skips_capture initialDrainState _ 0 []
    (by decide) (by decide)).2.1

end DxBuild
